import Mathlib

/-!
Shallow embedding of `src/amex_to_gnucash.py`, a single-file batch script that
converts an Amex HTML statement into a categorized CSV for Gnucash, enriching
Deliveroo transactions from a second HTML file of delivery orders.

Modelling conventions:
* Python strings are Lean `String`s; the Python substring test `pat in s` is
  `strContains s pat`; `str.upper()` / `str.lower()` are modelled by the
  ASCII case maps `upperStr` / `lowerStr` (all keywords in the script are
  ASCII, so the difference to the full Unicode case map of Python is irrelevant
  to the matching behaviour being verified).
* `decimal.Decimal` amounts are rationals `ℚ`; `Decimal.quantize(Decimal(0.01),
  ROUND_HALF_UP)` is `quantize2`.  Statement amounts reach the matching code as
  exact decimal fractions (Python round-trips `str(float)`), so `ℚ` is a
  faithful carrier.
* `datetime.date` values are `SDate` records; `strftime` with format
  `%Y-%m-%d` is `SDate.fmt`.
* The Deliveroo lookup dictionary is a total function `OrderKey → List String`
  (missing key ↦ `[]`), exactly mirroring the script
  `key in dict and dict[key]` test and `dict[key].pop(0)` mutation.
* HTML traversal (BeautifulSoup) is outside the program: a statement row is
  modelled as the data the script extracts from it, with `Option` recording
  the places where the `try` block of the script can raise `AttributeError` or
  `ValueError` (a `find` returning `None`, `strptime` or `float` failing).
-/

namespace AmexGnucash

/-- Decides whether `pat` occurs at the start of `s` (character lists). -/
def listStartsWith : List Char → List Char → Bool
  | [], _ => true
  | _ :: _, [] => false
  | p :: ps, c :: cs => (p = c) && listStartsWith ps cs

/-- Decides whether `pat` occurs as a contiguous substring of `s`
(character lists); models `pat in s` of Python. -/
def listHasSub (pat : List Char) : List Char → Bool
  | [] => listStartsWith pat []
  | c :: rest => listStartsWith pat (c :: rest) || listHasSub pat rest

/-- Python substring containment `pat in s`. -/
def strContains (s pat : String) : Bool :=
  listHasSub pat.data s.data

/-- Python `str.upper()` (ASCII case map). -/
def upperStr (s : String) : String :=
  ⟨s.data.map Char.toUpper⟩

/-- Python `str.lower()` (ASCII case map). -/
def lowerStr (s : String) : String :=
  ⟨s.data.map Char.toLower⟩

/-- A calendar date, as produced by `datetime.strptime(...).date()`. -/
structure SDate where
  year : Nat
  month : Nat
  day : Nat
deriving DecidableEq, Repr

/-- Zero-pads a number to two digits, as `strftime` does for `%m` and `%d`. -/
def pad2 (n : Nat) : String :=
  if n < 10 then "0" ++ toString n else toString n

/-- Zero-pads a number to four digits, as `strftime` does for `%Y`. -/
def pad4 (n : Nat) : String :=
  if n < 10 then "000" ++ toString n
  else if n < 100 then "00" ++ toString n
  else if n < 1000 then "0" ++ toString n
  else toString n

/-- The `date_obj.strftime(\x27%Y-%m-%d\x27)`. -/
def SDate.fmt (d : SDate) : String :=
  pad4 d.year ++ "-" ++ pad2 d.month ++ "-" ++ pad2 d.day

/-- Rounds a rational to pence using `decimal.ROUND_HALF_UP` (ties away from
zero), as in `Decimal.quantize(Decimal(\x270.01\x27), rounding=ROUND_HALF_UP)`. -/
def roundHalfUp (q : ℚ) : ℤ :=
  if q < 0 then -⌊(-q) * 100 + 1 / 2⌋ else ⌊q * 100 + 1 / 2⌋

/-- The two-decimal-place quantisation of an amount, as a rational. -/
def quantize2 (q : ℚ) : ℚ :=
  (roundHalfUp q : ℚ) / 100

/-- Configuration constant `CREDIT_CARD_ACCOUNT` from the script. -/
def CREDIT_CARD_ACCOUNT : String := "Total:Passivo:Cartão de Crédito:Amex"

/-- Configuration constant `DEFAULT_EXPENSE_ACCOUNT` from the script. -/
def DEFAULT_EXPENSE_ACCOUNT : String := "Não classificado"

/-- The `ACCOUNT_RULES` dictionary of the script, in declaration order
(Python dictionaries iterate in insertion order). -/
def ACCOUNT_RULES : List (String × List String) :=
  [("Despesas:Cachorro", ["GROOMING"]),
   ("Despesas:Celular", ["SMARTY"]),
   ("Despesas:Diversão", ["YOUTUBEPREMIUM"]),
   ("Despesas:Educação", ["RHODES AVENUE", "BREEZY CLUB"]),
   ("Despesas:Saúde", ["BOOTS", "MASSAGE", "PHARMACY", "FUSSY", "SUNDAYS INSURANCE"]),
   ("Despesas:Supermercado",
    ["PACTCOFFEE", "WAITROSE", "SAINSBURY", "OCADO", "ASTRID BAKERY", "MORRISONS",
     "ASDA", "GAIL", "BRAZILIAN CENTRE"]),
   ("Despesas:Vestuário", ["UNIQLO", "HAIR-TRIBE"]),
   ("Total:Ativo:Conta corrente:Monzo", ["PAYMENT RECEIVED"])]

/-- The key of the Deliveroo lookup dictionary: `(date, amount)`.  Python
`Decimal` keys compare by numeric value, hence the `ℚ` component. -/
abbrev OrderKey := SDate × ℚ

/-- The Deliveroo lookup dictionary, as a total function with default `[]`. -/
abbrev Orders := OrderKey → List String

/-- The empty lookup dictionary, `deliveroo_orders = \x7b\x7d`. -/
def emptyOrders : Orders := fun _ => []

/-- One successfully parsed Deliveroo order item: restaurant name, order date
and order amount, as extracted by `parse_deliveroo_orders` from one `li`
element (malformed items are skipped by its `except` clause and never reach
the dictionary). -/
structure DelivItem where
  restaurant : String
  date : SDate
  amount : ℚ
deriving DecidableEq, Repr

/-- The lookup key of an order item. -/
def DelivItem.key (it : DelivItem) : OrderKey := (it.date, it.amount)

/-- One insertion step of `parse_deliveroo_orders`: append the restaurant
name to the (possibly empty) candidate list of the key of the item. -/
def addOrder (os : Orders) (it : DelivItem) : Orders :=
  Function.update os it.key (os it.key ++ [it.restaurant])

/-- The dictionary built by `parse_deliveroo_orders` from the parsed items,
in file order. -/
def buildOrders (items : List DelivItem) : Orders :=
  items.foldl addOrder emptyOrders

/-- Whether one of the keywords of the rule occurs in the uppercased description:
`any(keyword in description.upper() for keyword in keywords)`. -/
def ruleMatches (description : String) (rule : String × List String) : Bool :=
  rule.2.any (fun kw => strContains (upperStr description) kw)

/-- The account of the first rule of `ACCOUNT_RULES` that matches the
description, if any: the `for rules_account, keywords in ACCOUNT_RULES.items()`
loop of `get_account_and_description`. -/
def findRule (description : String) : Option String :=
  (ACCOUNT_RULES.find? (ruleMatches description)).map Prod.fst

/-- The function `get_account_and_description(description, date_obj,
amount_value, deliveroo_orders)`.  Returns the `(description, account)` pair
together with the (possibly mutated) Deliveroo dictionary; the caller passes
the absolute transaction amount. -/
def getAccountAndDescription (description : String) (dateObj : SDate)
    (amountValue : ℚ) (deliverooOrders : Orders) : (String × String) × Orders :=
  let step : String × String × Orders :=
    if strContains (upperStr description) "DELIVEROO" then
      let lookupKey : OrderKey := (dateObj, quantize2 amountValue)
      match deliverooOrders lookupKey with
      | [] => (description, "Despesas:Comida", deliverooOrders)
      | restaurantName :: rest =>
          ("Deliveroo: " ++ restaurantName, "Despesas:Comida",
           Function.update deliverooOrders lookupKey rest)
    else
      (description, DEFAULT_EXPENSE_ACCOUNT, deliverooOrders)
  match findRule step.1 with
  | some rulesAccount => ((step.1, rulesAccount), step.2.2)
  | none => ((step.1, step.2.1), step.2.2)

/-- One statement row (`tr` element), as the data `process_html_file` extracts
from it.  `numCols` is `len(columns)`; `statusText` is `columns[1].text.strip()`
(a tag always has a `text`, so this extraction cannot fail); the `Option`
fields record the fallible extractions inside the `try` block: `dateVal` is
the parsed `datetime` of `columns[0].find(div).text` combined with the
statement year (`None` when the `find` returns nothing or `strptime` raises
`ValueError`), `descVal` is `columns[2].find(a).text.strip()`, `badge` is the
stripped text of the supplementary-card badge `span` when present, and
`amountVal` is the value of `float(...)` on the cleaned `columns[4]` text. -/
structure Row where
  numCols : Nat
  statusText : String
  dateVal : Option SDate
  descVal : Option String
  badge : Option String
  amountVal : Option ℚ
deriving DecidableEq, Repr

/-- One record of the output CSV other than the header, with the debit and
credit cells kept as optional amounts (`none` is the empty cell `""`). -/
structure CsvRecord where
  date : String
  description : String
  account : String
  debit : Option ℚ
  credit : Option ℚ
  transfer : String
deriving DecidableEq, Repr

/-- What the loop body of `process_html_file` does with one statement row:
skip it because it has fewer than five cells, skip it as pending, skip it
because parsing raised `AttributeError` or `ValueError`, or emit a CSV
record. -/
inductive RowOutcome where
  | tooShort
  | pendingSkip
  | parseError
  | ok (rec : CsvRecord)
deriving DecidableEq, Repr

/-- Whether the script prints a log message for a skipped row: nothing is
printed for a row with fewer than five cells (`if len(columns) < 5: continue`),
while the pending branch and the `except` clause both print a skip message. -/
def RowOutcome.logs : RowOutcome → Bool
  | RowOutcome.tooShort => false
  | RowOutcome.pendingSkip => true
  | RowOutcome.parseError => true
  | RowOutcome.ok _ => false

/-- The supplementary-cardholder suffix appended to the final description:
`" (XX)"` when the badge span exists and its stripped text is non-empty. -/
def initialsTag : Option String → String
  | none => ""
  | some b => if b = "" then "" else " (" ++ b ++ ")"

/-- The successful tail of the loop body: build the CSV record from the
parsed fields, letting `get_account_and_description` (called on the absolute
amount) rewrite the description and pick the account, and splitting the
signed amount into the debit or credit cell. -/
def emitRow (os : Orders) (row : Row) (d : SDate) (desc : String) (amt : ℚ) :
    CsvRecord × Orders :=
  let res := getAccountAndDescription desc d |amt| os
  let dc : Option ℚ × Option ℚ :=
    if amt < 0 then (none, some |amt|) else (some amt, none)
  (⟨SDate.fmt d, res.1.1 ++ initialsTag row.badge, res.1.2, dc.1, dc.2,
    CREDIT_CARD_ACCOUNT⟩, res.2)

/-- The loop body of `process_html_file` for one row, threading the Deliveroo
dictionary.  Branch order follows the script: the five-cell check, then the
pending check, then the fallible field extractions of the `try` block (a
failure at any of them is caught by the `except` clause before the Deliveroo
dictionary is consulted, so it leaves the dictionary unchanged). -/
def processRow (os : Orders) (row : Row) : RowOutcome × Orders :=
  if row.numCols < 5 then (RowOutcome.tooShort, os)
  else if strContains (lowerStr row.statusText) "pending" then
    (RowOutcome.pendingSkip, os)
  else
    match row.dateVal, row.descVal, row.amountVal with
    | some d, some desc, some amt =>
        let r := emitRow os row d desc amt
        (RowOutcome.ok r.1, r.2)
    | _, _, _ => (RowOutcome.parseError, os)

/-- The whole `for trx in ...` loop over a list of rows (in iteration order),
collecting the emitted CSV records and threading the Deliveroo dictionary. -/
def processAll : Orders → List Row → List CsvRecord × Orders
  | os, [] => ([], os)
  | os, row :: rest =>
    match processRow os row with
    | (RowOutcome.ok rec, os2) =>
        let t := processAll os2 rest
        (rec :: t.1, t.2)
    | (_, os2) => processAll os2 rest

/-- The loop as the script runs it: `for trx in reversed(transactions)`,
where `rows` lists the transaction rows in the order they appear in the
statement HTML. -/
def runStatement (os : Orders) (rows : List Row) : List CsvRecord × Orders :=
  processAll os rows.reverse

/-- The fixed header row written first to the CSV. -/
def HEADER : List String :=
  ["Date", "Description", "Account", "Amount Debit", "Amount Credit",
   "Transfer Account"]

/-- Rendering of a rational amount into a CSV cell.  It stands for Python
rendering the float via `csv.writer`; the claims under verification depend
only on the cell being non-empty and on its position. -/
def qStr (q : ℚ) : String :=
  toString q.num ++ "/" ++ toString q.den

/-- An optional amount as a CSV cell: the empty string when absent. -/
def optAmountStr : Option ℚ → String
  | none => ""
  | some q => qStr q

/-- The six cells of an emitted CSV record, in the order the script writes
them: date, description, account, debit, credit, transfer account. -/
def CsvRecord.toFields (rec : CsvRecord) : List String :=
  [rec.date, rec.description, rec.account, optAmountStr rec.debit,
   optAmountStr rec.credit, rec.transfer]

/-- The optional Deliveroo orders input: either the file is missing or
unreadable, or it yields a list of successfully parsed order items. -/
inductive DelivInput where
  | missing
  | content (items : List DelivItem)

/-- The dictionary `parse_deliveroo_orders` hands back to `process_html_file`:
empty (after a printed warning) when the file cannot be read, and the built
lookup table otherwise. -/
def loadDeliveroo : DelivInput → Orders
  | DelivInput.missing => emptyOrders
  | DelivInput.content items => buildOrders items

/-- The required Amex statement input: the file is unreadable, or it is an
HTML document in which the transaction table body is or is not found
(`doc none` models `soup.find(tbody, ...)` returning `None`), with the
transaction rows listed in HTML order. -/
inductive AmexInput where
  | unreadable
  | doc (tableRows : Option (List Row))

/-- The observable result of `process_html_file`: `Except.error 1` models
`sys.exit(1)` after a printed error (no output file is opened on these
paths), `Except.ok none` models the early `return` when no transaction rows
are found (no output file either), and `Except.ok (some file)` is the
written CSV, header first. -/
def processHtmlFile (amex : AmexInput) (dv : DelivInput) :
    Except Nat (Option (List (List String))) :=
  match amex with
  | AmexInput.unreadable => Except.error 1
  | AmexInput.doc none => Except.error 1
  | AmexInput.doc (some rows) =>
    if rows.isEmpty then Except.ok none
    else
      Except.ok (some (HEADER ::
        (runStatement (loadDeliveroo dv) rows).1.map CsvRecord.toFields))

/-- Whether the loop body emits a CSV record for a row.  This depends only on
the row, not on the Deliveroo dictionary: the dictionary influences the
content of the record, never whether one is written. -/
def rowEmits (row : Row) : Bool :=
  decide (5 ≤ row.numCols)
    && !(strContains (lowerStr row.statusText) "pending")
    && row.dateVal.isSome && row.descVal.isSome && row.amountVal.isSome

/-- The dictionary-independent part of an emitted record: its date cell and
its debit and credit cells. -/
def stampRec (rec : CsvRecord) : String × Option ℚ × Option ℚ :=
  (rec.date, rec.debit, rec.credit)

/-- The stamp an emitting row produces, computed from the row alone. -/
def rowStamp (row : Row) : String × Option ℚ × Option ℚ :=
  let amt := row.amountVal.getD 0
  (SDate.fmt (row.dateVal.getD ⟨0, 0, 0⟩),
   if amt < 0 then (none, some |amt|) else (some amt, none))

/-- A run of `n` successive statement transactions that all carry the same
description, date and (absolute) amount, each processed by
`get_account_and_description` against the dictionary left by the previous
one, as the loop of `process_html_file` does; returns the emitted
descriptions in order and the final dictionary. -/
def consumeRun (desc : String) (d : SDate) (amt : ℚ) :
    Nat → Orders → List String × Orders
  | 0, os => ([], os)
  | Nat.succ n, os =>
    let step := getAccountAndDescription desc d amt os
    let rest := consumeRun desc d amt n step.2
    (step.1.1 :: rest.1, rest.2)

/-- When the description does not mention DELIVEROO, the result is the
original description with the first-match rule account, or the default
account when no rule matches. -/
theorem gAAD_not_deliveroo (desc : String) (d : SDate) (amt : ℚ) (os : Orders)
    (h : strContains (upperStr desc) "DELIVEROO" = false) :
    getAccountAndDescription desc d amt os
      = ((desc, (findRule desc).getD DEFAULT_EXPENSE_ACCOUNT), os) := by
  cases hf : findRule desc <;> simp [getAccountAndDescription, h, hf]

/-- Deliveroo fallback: description mentions DELIVEROO but the lookup has no
candidate under the key.  The description is kept, the dictionary is left
unchanged, and the account is `Despesas:Comida` unless a keyword rule
matches the (unchanged) description. -/
theorem gAAD_deliveroo_nil (desc : String) (d : SDate) (amt : ℚ) (os : Orders)
    (h : strContains (upperStr desc) "DELIVEROO" = true)
    (hk : os (d, quantize2 amt) = []) :
    getAccountAndDescription desc d amt os
      = ((desc, (findRule desc).getD "Despesas:Comida"), os) := by
  cases hf : findRule desc <;> simp [getAccountAndDescription, h, hk, hf]

/-- Deliveroo match: the first candidate under the key is popped, the
description becomes `Deliveroo: <restaurant>`, and the account is
`Despesas:Comida` unless a keyword rule matches the new description. -/
theorem gAAD_deliveroo_cons (desc : String) (d : SDate) (amt : ℚ) (os : Orders)
    (r : String) (rest : List String)
    (h : strContains (upperStr desc) "DELIVEROO" = true)
    (hk : os (d, quantize2 amt) = r :: rest) :
    getAccountAndDescription desc d amt os
      = (("Deliveroo: " ++ r,
          (findRule ("Deliveroo: " ++ r)).getD "Despesas:Comida"),
         Function.update os (d, quantize2 amt) rest) := by
  cases hf : findRule ("Deliveroo: " ++ r) <;>
    simp [getAccountAndDescription, h, hk, hf]

/-- First-match characterisation of `List.find?`: if the element at position
`j` satisfies the predicate and everything before it does not, `find?`
returns exactly that element. -/
theorem find?_first {α : Type} (p : α → Bool) :
    ∀ (l : List α) (j : Nat) (x : α), l.get? j = some x → p x = true →
      (l.take j).all (fun y => !(p y)) = true → l.find? p = some x := by
  intro l
  induction l with
  | nil => intro j x hj; simp at hj
  | cons a t ih =>
    intro j x hj hx hall
    cases j with
    | zero =>
      simp at hj
      subst hj
      simp [List.find?_cons_of_pos, hx]
    | succ n =>
      simp [List.take_succ_cons, List.all_cons] at hall
      have ha : p a = false := by
        cases hpa : p a
        · rfl
        · exact absurd hpa (by simpa using hall.1)
      rw [List.find?_cons_of_neg _ (by simp [ha])]
      exact ih n x (by simpa using hj) hx (by
        rcases hall with ⟨h1, h2⟩
        simpa using h2)

/-- The lookup built by folding `addOrder` maps each key to the previous
content followed by the restaurants of the items carrying that key, in list
order. -/
theorem foldl_addOrder_apply :
    ∀ (items : List DelivItem) (os : Orders) (k : OrderKey),
      items.foldl addOrder os k
        = os k ++ (items.filter
            (fun it => decide (it.key = k))).map DelivItem.restaurant := by
  intro items
  induction items with
  | nil => intro os k; simp
  | cons a t ih =>
    intro os k
    rw [List.foldl_cons, ih (addOrder os a) k]
    by_cases hk : a.key = k
    · subst hk
      simp [addOrder, Function.update_apply, List.filter_cons,
        List.append_assoc]
    · have hk2 : ¬ k = a.key := fun h => hk h.symm
      simp [addOrder, Function.update_apply, List.filter_cons, hk, hk2]

/-- The dictionary built by `parse_deliveroo_orders` maps each key to the
restaurant names of the parsed items with that key, in file (insertion)
order. -/
theorem buildOrders_apply (items : List DelivItem) (k : OrderKey) :
    buildOrders items k
      = (items.filter
          (fun it => decide (it.key = k))).map DelivItem.restaurant := by
  simpa [emptyOrders] using foldl_addOrder_apply items emptyOrders k

/-- Behaviour of a run of identical Deliveroo transactions against an
arbitrary dictionary: the first `min n (length of the candidate list)`
transactions receive the successive candidates, the remaining ones keep the
original description; afterwards the key holds the not-yet-consumed suffix
and every other key is untouched. -/
theorem consumeRun_spec (desc : String) (d : SDate) (amt : ℚ)
    (hD : strContains (upperStr desc) "DELIVEROO" = true) :
    ∀ (n : Nat) (os : Orders),
      (consumeRun desc d amt n os).1
        = ((os (d, quantize2 amt)).take n).map (fun r => "Deliveroo: " ++ r)
            ++ List.replicate (n - (os (d, quantize2 amt)).length) desc
      ∧ (consumeRun desc d amt n os).2 (d, quantize2 amt)
          = (os (d, quantize2 amt)).drop n
      ∧ ∀ k2, k2 ≠ (d, quantize2 amt) →
          (consumeRun desc d amt n os).2 k2 = os k2 := by
  intro n
  induction n with
  | zero => intro os; simp [consumeRun]
  | succ n ih =>
    intro os
    cases hk : os (d, quantize2 amt) with
    | nil =>
      have hstep := gAAD_deliveroo_nil desc d amt os hD hk
      have ihos := ih os
      refine ⟨?_, ?_, ?_⟩
      · simp only [consumeRun, hstep, hk]
        rw [ihos.1, hk]
        simp [List.replicate_succ]
      · simp only [consumeRun, hstep]
        rw [ihos.2.1, hk]
        simp
      · intro k2 hk2
        simp only [consumeRun, hstep]
        exact ihos.2.2 k2 hk2
    | cons r rest =>
      have hstep := gAAD_deliveroo_cons desc d amt os r rest hD hk
      have hupd : Function.update os (d, quantize2 amt) rest (d, quantize2 amt)
          = rest := Function.update_same _ _ _
      have ihos := ih (Function.update os (d, quantize2 amt) rest)
      refine ⟨?_, ?_, ?_⟩
      · simp only [consumeRun, hstep, hk]
        rw [ihos.1, hupd]
        simp [Nat.succ_sub_succ]
      · simp only [consumeRun, hstep, hk]
        rw [ihos.2.1, hupd, List.drop_succ_cons]
      · intro k2 hk2
        simp only [consumeRun, hstep]
        rw [ihos.2.2 k2 hk2]
        exact Function.update_noteq hk2 _ _

/-- A row with fewer than five cells is skipped, leaving the dictionary
unchanged. -/
theorem processRow_tooShort (os : Orders) (row : Row)
    (h : row.numCols < 5) :
    processRow os row = (RowOutcome.tooShort, os) := by
  simp [processRow, h]

/-- A pending row (with at least five cells) is skipped, leaving the
dictionary unchanged. -/
theorem processRow_pending (os : Orders) (row : Row)
    (h1 : ¬ row.numCols < 5)
    (h2 : strContains (lowerStr row.statusText) "pending" = true) :
    processRow os row = (RowOutcome.pendingSkip, os) := by
  simp [processRow, h1, h2]

/-- A row whose date, description or amount extraction fails raises inside
the `try` block and is skipped, leaving the dictionary unchanged. -/
theorem processRow_parseError (os : Orders) (row : Row)
    (h1 : ¬ row.numCols < 5)
    (h2 : strContains (lowerStr row.statusText) "pending" = false)
    (h3 : row.dateVal = none ∨ row.descVal = none ∨ row.amountVal = none) :
    processRow os row = (RowOutcome.parseError, os) := by
  rcases h3 with h3 | h3 | h3
  · cases hde : row.descVal <;> cases ha : row.amountVal <;>
      simp [processRow, h1, h2, h3, hde, ha]
  · cases hd : row.dateVal <;> cases ha : row.amountVal <;>
      simp [processRow, h1, h2, h3, hd, ha]
  · cases hd : row.dateVal <;> cases hde : row.descVal <;>
      simp [processRow, h1, h2, h3, hd, hde]

/-- A fully parsed, non-pending row with enough cells emits the record built
by `emitRow`. -/
theorem processRow_emits (os : Orders) (row : Row) (d : SDate)
    (desc : String) (amt : ℚ)
    (h1 : ¬ row.numCols < 5)
    (h2 : strContains (lowerStr row.statusText) "pending" = false)
    (hd : row.dateVal = some d) (hde : row.descVal = some desc)
    (ha : row.amountVal = some amt) :
    processRow os row
      = (RowOutcome.ok (emitRow os row d desc amt).1,
         (emitRow os row d desc amt).2) := by
  simp [processRow, h1, h2, hd, hde, ha]

/-- Inversion: an emitted record comes from a fully parsed, non-pending row
with at least five cells, via `emitRow`. -/
theorem processRow_ok_inv (os : Orders) (row : Row) (rec : CsvRecord)
    (os2 : Orders)
    (h : processRow os row = (RowOutcome.ok rec, os2)) :
    ∃ d desc amt, ¬ row.numCols < 5
      ∧ strContains (lowerStr row.statusText) "pending" = false
      ∧ row.dateVal = some d ∧ row.descVal = some desc
      ∧ row.amountVal = some amt
      ∧ rec = (emitRow os row d desc amt).1
      ∧ os2 = (emitRow os row d desc amt).2 := by
  by_cases h1 : row.numCols < 5
  · rw [processRow_tooShort os row h1] at h
    exact absurd (congrArg Prod.fst h) (by simp)
  cases h2 : strContains (lowerStr row.statusText) "pending" with
  | true =>
    rw [processRow_pending os row h1 h2] at h
    exact absurd (congrArg Prod.fst h) (by simp)
  | false =>
    cases hd : row.dateVal with
    | none =>
      rw [processRow_parseError os row h1 h2 (Or.inl hd)] at h
      exact absurd (congrArg Prod.fst h) (by simp)
    | some d =>
      cases hde : row.descVal with
      | none =>
        rw [processRow_parseError os row h1 h2 (Or.inr (Or.inl hde))] at h
        exact absurd (congrArg Prod.fst h) (by simp)
      | some desc =>
        cases ha : row.amountVal with
        | none =>
          rw [processRow_parseError os row h1 h2 (Or.inr (Or.inr ha))] at h
          exact absurd (congrArg Prod.fst h) (by simp)
        | some amt =>
          rw [processRow_emits os row d desc amt h1 h2 hd hde ha] at h
          obtain ⟨hrec, hos⟩ := Prod.mk.inj h
          exact ⟨d, desc, amt, h1, rfl, rfl, rfl, rfl,
            (RowOutcome.ok.inj hrec).symm, hos.symm⟩

/-- A row emits a record exactly when `rowEmits` holds of it. -/
theorem processRow_ok_iff (os : Orders) (row : Row) :
    (∃ rec os2, processRow os row = (RowOutcome.ok rec, os2))
      ↔ rowEmits row = true := by
  constructor
  · rintro ⟨rec, os2, h⟩
    obtain ⟨d, desc, amt, h1, h2, hd, hde, ha, -, -⟩ :=
      processRow_ok_inv os row rec os2 h
    simp [rowEmits, Nat.not_lt.mp h1, h2, hd, hde, ha]
  · intro h
    simp only [rowEmits, Bool.and_eq_true, decide_eq_true_eq,
      Bool.not_eq_true', Option.isSome_iff_exists] at h
    obtain ⟨⟨⟨⟨hc, hp⟩, d, hd⟩, desc, hde⟩, amt, ha⟩ := h
    exact ⟨_, _, processRow_emits os row d desc amt (Nat.not_lt.mpr hc) hp
      hd hde ha⟩

/-- Unfolding of the loop on a row that emits a record. -/
theorem processAll_cons_ok (os : Orders) (row : Row) (rest : List Row)
    (rec : CsvRecord) (os2 : Orders)
    (h : processRow os row = (RowOutcome.ok rec, os2)) :
    processAll os (row :: rest)
      = (rec :: (processAll os2 rest).1, (processAll os2 rest).2) := by
  simp [processAll, h]

/-- Unfolding of the loop on a skipped row: the loop just continues with the
remaining rows. -/
theorem processAll_cons_skip (os : Orders) (row : Row) (rest : List Row)
    (oc : RowOutcome) (os2 : Orders)
    (hoc : ∀ rec, oc ≠ RowOutcome.ok rec)
    (h : processRow os row = (oc, os2)) :
    processAll os (row :: rest) = processAll os2 rest := by
  cases oc with
  | ok rec => exact absurd rfl (hoc rec)
  | tooShort => simp [processAll, h]
  | pendingSkip => simp [processAll, h]
  | parseError => simp [processAll, h]

/-- A skipped row does not satisfy `rowEmits`. -/
theorem rowEmits_false_of_skip (os : Orders) (row : Row) (oc : RowOutcome)
    (os2 : Orders) (h : processRow os row = (oc, os2))
    (hoc : ∀ rec, oc ≠ RowOutcome.ok rec) : rowEmits row = false := by
  cases hre : rowEmits row
  · rfl
  · obtain ⟨rec, os3, h2⟩ := (processRow_ok_iff os row).mpr hre
    rw [h] at h2
    obtain ⟨h3, -⟩ := Prod.mk.inj h2
    exact absurd h3 (hoc rec)

/-- Every record the loop emits carries the fixed credit-card account in its
transfer field. -/
theorem processAll_transfer :
    ∀ (rs : List Row) (os : Orders) (rec : CsvRecord),
      rec ∈ (processAll os rs).1 → rec.transfer = CREDIT_CARD_ACCOUNT := by
  intro rs
  induction rs with
  | nil => intro os rec h; simp [processAll] at h
  | cons row rest ih =>
    intro os rec h
    rcases hpr : processRow os row with ⟨oc, os2⟩
    cases oc with
    | ok rec0 =>
      rw [processAll_cons_ok os row rest rec0 os2 hpr] at h
      rcases List.mem_cons.mp h with h | h
      · subst h
        obtain ⟨d, desc, amt, -, -, -, -, -, hrec, -⟩ :=
          processRow_ok_inv os row rec os2 hpr
        rw [hrec]
        rfl
      · exact ih os2 rec h
    | tooShort =>
      rw [processAll_cons_skip os row rest _ os2 (by simp) hpr] at h
      exact ih os2 rec h
    | pendingSkip =>
      rw [processAll_cons_skip os row rest _ os2 (by simp) hpr] at h
      exact ih os2 rec h
    | parseError =>
      rw [processAll_cons_skip os row rest _ os2 (by simp) hpr] at h
      exact ih os2 rec h

/-- The dictionary-independent stamp of an emitted record is determined by
the row it came from. -/
theorem emitRow_stamp (os : Orders) (row : Row) (d : SDate) (desc : String)
    (amt : ℚ) (hd : row.dateVal = some d) (ha : row.amountVal = some amt) :
    stampRec (emitRow os row d desc amt).1 = rowStamp row := by
  by_cases hlt : amt < 0 <;>
    simp [stampRec, emitRow, rowStamp, hd, ha, hlt]

/-- The emitted records, projected to their stamps, are exactly the emitting
rows in iteration order. -/
theorem processAll_stamps :
    ∀ (rs : List Row) (os : Orders),
      ((processAll os rs).1).map stampRec
        = (rs.filter rowEmits).map rowStamp := by
  intro rs
  induction rs with
  | nil => intro os; simp [processAll]
  | cons row rest ih =>
    intro os
    rcases hpr : processRow os row with ⟨oc, os2⟩
    cases oc with
    | ok rec0 =>
      have he : rowEmits row = true :=
        (processRow_ok_iff os row).mp ⟨rec0, os2, hpr⟩
      rw [processAll_cons_ok os row rest rec0 os2 hpr]
      obtain ⟨d, desc, amt, -, -, hd, -, ha, hrec, -⟩ :=
        processRow_ok_inv os row rec0 os2 hpr
      simp only [List.map_cons, List.filter_cons, he, if_true, ih os2]
      rw [hrec, emitRow_stamp os row d desc amt hd ha]
    | tooShort =>
      have hne := rowEmits_false_of_skip os row _ os2 hpr (by simp)
      rw [processAll_cons_skip os row rest _ os2 (by simp) hpr]
      simp [List.filter_cons, hne, ih os2]
    | pendingSkip =>
      have hne := rowEmits_false_of_skip os row _ os2 hpr (by simp)
      rw [processAll_cons_skip os row rest _ os2 (by simp) hpr]
      simp [List.filter_cons, hne, ih os2]
    | parseError =>
      have hne := rowEmits_false_of_skip os row _ os2 hpr (by simp)
      rw [processAll_cons_skip os row rest _ os2 (by simp) hpr]
      simp [List.filter_cons, hne, ih os2]

/-- C1: for a statement transaction whose description contains "DELIVEROO"
case-insensitively, the program looks up the pair of the transaction date and
the half-up two-decimal rounding of the (absolute) transaction amount in the
delivery-order table.  If a candidate restaurant exists under that key, the
emitted description becomes `Deliveroo: <restaurant name>` and the first
candidate is consumed; if none exists, the original description is kept and
the table is untouched.  In both cases the assigned account is
`Despesas:Comida`, unless a later keyword rule matches the resulting
description.  (`amountValue` is the absolute amount, as passed by the caller
`process_html_file`.) -/
theorem c1_deliveroo_enrichment (desc : String) (d : SDate) (amt : ℚ)
    (os : Orders)
    (hD : strContains (upperStr desc) "DELIVEROO" = true) :
    getAccountAndDescription desc d amt os
      = match os (d, quantize2 amt) with
        | [] => ((desc, (findRule desc).getD "Despesas:Comida"), os)
        | r :: rest =>
            (("Deliveroo: " ++ r,
              (findRule ("Deliveroo: " ++ r)).getD "Despesas:Comida"),
             Function.update os (d, quantize2 amt) rest) := by
  cases hk : os (d, quantize2 amt) with
  | nil => exact gAAD_deliveroo_nil desc d amt os hD hk
  | cons r rest => exact gAAD_deliveroo_cons desc d amt os r rest hD hk

/-- Witness for C1 at a concrete input: a Deliveroo order of 85.93 on
13 July 2025 enriches a statement line with the same date and amount. -/
theorem c1_deliveroo_enrichment_witness :
    getAccountAndDescription "DELIVEROO  LONDON" ⟨2025, 7, 13⟩ (8593 / 100)
        (buildOrders [⟨"Nandos", ⟨2025, 7, 13⟩, 8593 / 100⟩])
      = (("Deliveroo: " ++ "Nandos",
          (findRule ("Deliveroo: " ++ "Nandos")).getD "Despesas:Comida"),
         Function.update
           (buildOrders [⟨"Nandos", ⟨2025, 7, 13⟩, 8593 / 100⟩])
           (⟨2025, 7, 13⟩, quantize2 (8593 / 100)) []) := by
  have hq : quantize2 ((8593 : ℚ) / 100) = 8593 / 100 := by
    with_unfolding_all rfl
  have hkey : buildOrders [⟨"Nandos", ⟨2025, 7, 13⟩, 8593 / 100⟩]
      (⟨2025, 7, 13⟩, quantize2 ((8593 : ℚ) / 100)) = ["Nandos"] := by
    rw [hq]
    simp [buildOrders, addOrder, emptyOrders, DelivItem.key,
      Function.update_same]
  have h := c1_deliveroo_enrichment "DELIVEROO  LONDON" ⟨2025, 7, 13⟩
    (8593 / 100) (buildOrders [⟨"Nandos", ⟨2025, 7, 13⟩, 8593 / 100⟩])
    (by decide)
  rw [hkey] at h
  exact h

/-- C2: the delivery-order lookup built by `parse_deliveroo_orders` stores,
under each `(date, amount)` key, the candidate restaurants in insertion
order, and a run of matching statement transactions consumes them one per
transaction: the k-th matching transaction receives the k-th candidate,
transactions beyond the last candidate keep their own description, the key
retains exactly the unconsumed suffix, and no other key is touched. -/
theorem c2_candidates_consumed_once (desc : String) (d : SDate) (amt : ℚ)
    (items : List DelivItem) (n : Nat)
    (hD : strContains (upperStr desc) "DELIVEROO" = true) :
    (consumeRun desc d amt n (buildOrders items)).1
      = (((items.filter
            (fun it => decide (it.key = (d, quantize2 amt)))).map
              DelivItem.restaurant).take n).map (fun r => "Deliveroo: " ++ r)
        ++ List.replicate
            (n - ((items.filter
              (fun it => decide (it.key = (d, quantize2 amt)))).map
                DelivItem.restaurant).length) desc
    ∧ (consumeRun desc d amt n (buildOrders items)).2 (d, quantize2 amt)
        = ((items.filter
            (fun it => decide (it.key = (d, quantize2 amt)))).map
              DelivItem.restaurant).drop n
    ∧ ∀ k2, k2 ≠ (d, quantize2 amt) →
        (consumeRun desc d amt n (buildOrders items)).2 k2
          = buildOrders items k2 := by
  have h := consumeRun_spec desc d amt hD n (buildOrders items)
  rw [buildOrders_apply items (d, quantize2 amt)] at h
  exact h

/-- Concrete order history shared by several witnesses: two identical orders
on 13 July 2025 and one unrelated order the next day. -/
def demoItems : List DelivItem :=
  [⟨"Nandos", ⟨2025, 7, 13⟩, 8593 / 100⟩,
   ⟨"Pizza Palace", ⟨2025, 7, 13⟩, 8593 / 100⟩,
   ⟨"Sushi Bar", ⟨2025, 7, 14⟩, 5⟩]

/-- Witness for C2 at a concrete input: three identical Deliveroo statement
lines against two identical orders on the same day. -/
theorem c2_candidates_consumed_once_witness :
    (consumeRun "DELIVEROO" ⟨2025, 7, 13⟩ (8593 / 100) 3
        (buildOrders demoItems)).1
      = (((demoItems.filter
            (fun it => decide
              (it.key = (⟨2025, 7, 13⟩, quantize2 (8593 / 100))))).map
              DelivItem.restaurant).take 3).map (fun r => "Deliveroo: " ++ r)
        ++ List.replicate
            (3 - ((demoItems.filter
              (fun it => decide
                (it.key = (⟨2025, 7, 13⟩, quantize2 (8593 / 100))))).map
                DelivItem.restaurant).length) "DELIVEROO"
    ∧ (consumeRun "DELIVEROO" ⟨2025, 7, 13⟩ (8593 / 100) 3
        (buildOrders demoItems)).2 (⟨2025, 7, 13⟩, quantize2 (8593 / 100))
        = ((demoItems.filter
            (fun it => decide
              (it.key = (⟨2025, 7, 13⟩, quantize2 (8593 / 100))))).map
              DelivItem.restaurant).drop 3
    ∧ ∀ k2, k2 ≠ (⟨2025, 7, 13⟩, quantize2 (8593 / 100)) →
        (consumeRun "DELIVEROO" ⟨2025, 7, 13⟩ (8593 / 100) 3
          (buildOrders demoItems)).2 k2 = buildOrders demoItems k2 :=
  c2_candidates_consumed_once "DELIVEROO" ⟨2025, 7, 13⟩ (8593 / 100)
    demoItems 3 (by decide)

/-- C3: categorization is a flat first-match keyword scan.  When the
description does not contain "DELIVEROO", the assigned account is the
account of the first rule of `ACCOUNT_RULES` (in declaration order) one of
whose keywords occurs in the uppercased description, and the default
`Não classificado` when no keyword matches; there is no other precedence
mechanism. -/
theorem c3_first_match_categorization (desc : String) (d : SDate) (amt : ℚ)
    (os : Orders) (j : Nat) (rule : String × List String)
    (hnd : strContains (upperStr desc) "DELIVEROO" = false) :
    getAccountAndDescription desc d amt os
      = ((desc, (findRule desc).getD DEFAULT_EXPENSE_ACCOUNT), os)
    ∧ (ACCOUNT_RULES.get? j = some rule → ruleMatches desc rule = true →
        (ACCOUNT_RULES.take j).all (fun r => !(ruleMatches desc r)) = true →
        findRule desc = some rule.1)
    ∧ ((ACCOUNT_RULES.all fun r => !(ruleMatches desc r)) = true →
        findRule desc = none) := by
  refine ⟨gAAD_not_deliveroo desc d amt os hnd, ?_, ?_⟩
  · intro hj hm hall
    unfold findRule
    rw [find?_first (ruleMatches desc) ACCOUNT_RULES j rule hj hm hall]
    rfl
  · intro hall
    have hnone : ACCOUNT_RULES.find? (ruleMatches desc) = none := by
      rw [List.find?_eq_none]
      intro x hx
      have h2 := List.all_eq_true.mp hall x hx
      simp only [Bool.not_eq_true'] at h2
      simp [h2]
    simp [findRule, hnone]

/-- Witness for C3 at a concrete input: a WAITROSE description matches the
sixth rule (index 5) and no earlier one, and is assigned
`Despesas:Supermercado`. -/
theorem c3_first_match_categorization_witness :
    getAccountAndDescription "WAITROSE LONDON" ⟨2025, 1, 2⟩ 10 emptyOrders
      = (("WAITROSE LONDON",
          (findRule "WAITROSE LONDON").getD DEFAULT_EXPENSE_ACCOUNT),
         emptyOrders)
    ∧ findRule "WAITROSE LONDON" = some "Despesas:Supermercado" := by
  have h := c3_first_match_categorization "WAITROSE LONDON" ⟨2025, 1, 2⟩ 10
    emptyOrders 5
    ("Despesas:Supermercado",
     ["PACTCOFFEE", "WAITROSE", "SAINSBURY", "OCADO", "ASTRID BAKERY",
      "MORRISONS", "ASDA", "GAIL", "BRAZILIAN CENTRE"]) (by decide)
  exact ⟨h.1, h.2.1 (by decide) (by decide) (by decide)⟩

/-- Counterexample to C4 as stated: a structurally malformed row — here one
with only three cells — is skipped by `if len(columns) < 5: continue`
without any log message, contradicting "the program logs a message for that
row". -/
theorem c4_short_row_skipped_silently :
    (processRow emptyOrders ⟨3, "", none, none, none, none⟩).1
        = RowOutcome.tooShort
    ∧ RowOutcome.logs
        (processRow emptyOrders ⟨3, "", none, none, none, none⟩).1
        = false := by
  constructor <;> rfl

/-- C4 (amended): a statement row with at least five cells whose date,
description or amount extraction fails is logged and skipped; a row with
fewer than five cells is skipped without a log message.  In both cases no
CSV record is emitted for the row, the delivery-order table is left
unchanged, and the remaining rows are processed exactly as if the malformed
row were absent. -/
theorem c4_malformed_rows_skipped (os : Orders) (row : Row)
    (rest : List Row) :
    (row.numCols < 5 →
      processRow os row = (RowOutcome.tooShort, os)
      ∧ RowOutcome.logs RowOutcome.tooShort = false
      ∧ processAll os (row :: rest) = processAll os rest)
    ∧ (¬ row.numCols < 5 →
        strContains (lowerStr row.statusText) "pending" = false →
        (row.dateVal = none ∨ row.descVal = none ∨ row.amountVal = none) →
        processRow os row = (RowOutcome.parseError, os)
        ∧ RowOutcome.logs RowOutcome.parseError = true
        ∧ processAll os (row :: rest) = processAll os rest) := by
  constructor
  · intro h1
    have hpr := processRow_tooShort os row h1
    exact ⟨hpr, rfl, processAll_cons_skip os row rest _ os (by simp) hpr⟩
  · intro h1 h2 h3
    have hpr := processRow_parseError os row h1 h2 h3
    exact ⟨hpr, rfl, processAll_cons_skip os row rest _ os (by simp) hpr⟩

/-- Witness for the amended C4 at a concrete input: a six-cell row whose
date extraction failed is logged, skipped and leaves everything else
unchanged. -/
theorem c4_malformed_rows_skipped_witness :
    processRow emptyOrders ⟨6, "posted", none, some "SHOP", none, none⟩
        = (RowOutcome.parseError, emptyOrders)
    ∧ RowOutcome.logs RowOutcome.parseError = true
    ∧ processAll emptyOrders
          (⟨6, "posted", none, some "SHOP", none, none⟩ :: [])
        = processAll emptyOrders [] :=
  (c4_malformed_rows_skipped emptyOrders
      ⟨6, "posted", none, some "SHOP", none, none⟩ []).2
    (by decide) (by decide) (Or.inl rfl)

/-- C5: when the Deliveroo orders file is missing or unreadable, the program
warns and continues with an empty lookup: the statement is still processed
to completion (an output CSV is produced), and Deliveroo transactions take
the no-match fallback — original description kept, account
`Despesas:Comida` unless a keyword rule matches. -/
theorem c5_missing_deliveroo_degrades (rows : List Row) (desc : String)
    (d : SDate) (amt : ℚ) (hne : rows ≠ [])
    (hD : strContains (upperStr desc) "DELIVEROO" = true) :
    loadDeliveroo DelivInput.missing = emptyOrders
    ∧ (∃ file, processHtmlFile (AmexInput.doc (some rows)) DelivInput.missing
        = Except.ok (some file))
    ∧ getAccountAndDescription desc d amt emptyOrders
        = ((desc, (findRule desc).getD "Despesas:Comida"), emptyOrders) := by
  have h0 : rows.isEmpty = false := by
    cases rows
    · exact absurd rfl hne
    · rfl
  refine ⟨rfl, ?_, gAAD_deliveroo_nil desc d amt emptyOrders hD rfl⟩
  exact ⟨HEADER ::
    (runStatement (loadDeliveroo DelivInput.missing) rows).1.map
      CsvRecord.toFields, by simp [processHtmlFile, h0]⟩

/-- Concrete statement row shared by several witnesses: too few cells, so it
is skipped, which is irrelevant to the properties witnessed. -/
def demoRow : Row := ⟨3, "", none, none, none, none⟩

/-- Witness for C5 at a concrete input. -/
theorem c5_missing_deliveroo_degrades_witness :
    loadDeliveroo DelivInput.missing = emptyOrders
    ∧ (∃ file, processHtmlFile (AmexInput.doc (some [demoRow]))
        DelivInput.missing = Except.ok (some file))
    ∧ getAccountAndDescription "DELIVEROO" ⟨2025, 7, 13⟩ 7 emptyOrders
        = (("DELIVEROO", (findRule "DELIVEROO").getD "Despesas:Comida"),
           emptyOrders) :=
  c5_missing_deliveroo_degrades [demoRow] "DELIVEROO" ⟨2025, 7, 13⟩ 7
    (by decide) (by decide)

/-- C6: when the Amex statement file cannot be opened, or the transaction
table body cannot be found in its HTML, the program exits with status 1 and
no output CSV is produced (the error value carries no file). -/
theorem c6_missing_amex_aborts (dv : DelivInput) :
    processHtmlFile AmexInput.unreadable dv = Except.error 1
    ∧ processHtmlFile (AmexInput.doc none) dv = Except.error 1 :=
  ⟨rfl, rfl⟩

/-- C7: whenever an output CSV is written (the statement parses and has at
least one transaction row), its first record is the fixed six-column header,
and every subsequent record has exactly six fields, the last being the fixed
credit-card account. -/
theorem c7_csv_shape (dv : DelivInput) (rows : List Row) (hne : rows ≠ []) :
    ∃ recs, processHtmlFile (AmexInput.doc (some rows)) dv
        = Except.ok (some (HEADER :: recs))
      ∧ ∀ f ∈ recs, f.length = 6
          ∧ f.getLast? = some CREDIT_CARD_ACCOUNT := by
  have h0 : rows.isEmpty = false := by
    cases rows
    · exact absurd rfl hne
    · rfl
  refine ⟨(runStatement (loadDeliveroo dv) rows).1.map CsvRecord.toFields,
    by simp [processHtmlFile, h0], ?_⟩
  intro f hf
  obtain ⟨rec, hrec, hfeq⟩ := List.mem_map.mp hf
  have ht := processAll_transfer rows.reverse (loadDeliveroo dv) rec hrec
  subst hfeq
  exact ⟨rfl, by
    rw [show (CsvRecord.toFields rec).getLast? = some rec.transfer from rfl,
      ht]⟩

/-- Witness for C7 at a concrete input. -/
theorem c7_csv_shape_witness :
    ∃ recs, processHtmlFile (AmexInput.doc (some [demoRow]))
        DelivInput.missing = Except.ok (some (HEADER :: recs))
      ∧ ∀ f ∈ recs, f.length = 6
          ∧ f.getLast? = some CREDIT_CARD_ACCOUNT :=
  c7_csv_shape DelivInput.missing [demoRow] (by decide)

/-- C8: every emitted transaction populates exactly one of the debit and
credit cells: a negative parsed amount puts its absolute value in the credit
cell and leaves the debit cell empty, a non-negative amount goes to the
debit cell and leaves the credit cell empty. -/
theorem c8_debit_credit_split (os : Orders) (row : Row) (d : SDate)
    (desc : String) (amt : ℚ)
    (h1 : ¬ row.numCols < 5)
    (h2 : strContains (lowerStr row.statusText) "pending" = false)
    (hd : row.dateVal = some d) (hde : row.descVal = some desc)
    (ha : row.amountVal = some amt) :
    ∃ rec os2, processRow os row = (RowOutcome.ok rec, os2)
      ∧ ((amt < 0 ∧ rec.debit = none ∧ rec.credit = some |amt|)
        ∨ (0 ≤ amt ∧ rec.debit = some amt ∧ rec.credit = none)) := by
  refine ⟨(emitRow os row d desc amt).1, (emitRow os row d desc amt).2,
    processRow_emits os row d desc amt h1 h2 hd hde ha, ?_⟩
  by_cases hlt : amt < 0
  · exact Or.inl ⟨hlt, by simp [emitRow, hlt], by simp [emitRow, hlt]⟩
  · exact Or.inr ⟨le_of_not_lt hlt, by simp [emitRow, hlt],
      by simp [emitRow, hlt]⟩

/-- Witness for C8 at a concrete input: a payment of -12.50. -/
theorem c8_debit_credit_split_witness :
    ∃ rec os2, processRow emptyOrders
        ⟨5, "posted", some ⟨2025, 3, 4⟩, some "PAYMENT RECEIVED", none,
         some (-(25 / 2))⟩ = (RowOutcome.ok rec, os2)
      ∧ ((-(25 / 2) : ℚ) < 0 ∧ rec.debit = none
            ∧ rec.credit = some |(-(25 / 2) : ℚ)|
        ∨ (0 : ℚ) ≤ -(25 / 2) ∧ rec.debit = some (-(25 / 2))
            ∧ rec.credit = none) :=
  c8_debit_credit_split emptyOrders
    ⟨5, "posted", some ⟨2025, 3, 4⟩, some "PAYMENT RECEIVED", none,
     some (-(25 / 2))⟩ ⟨2025, 3, 4⟩ "PAYMENT RECEIVED" (-(25 / 2))
    (by decide) (by decide) rfl rfl rfl

/-- C9: every statement row whose status cell contains "pending"
case-insensitively is skipped: no CSV record is emitted for it, the
delivery-order table is not consulted or changed, and processing continues
with the remaining rows. -/
theorem c9_pending_skipped (os : Orders) (row : Row) (rest : List Row)
    (hp : strContains (lowerStr row.statusText) "pending" = true) :
    ((processRow os row).1 = RowOutcome.tooShort
      ∨ (processRow os row).1 = RowOutcome.pendingSkip)
    ∧ (processRow os row).2 = os
    ∧ processAll os (row :: rest) = processAll os rest := by
  by_cases h1 : row.numCols < 5
  · have hpr := processRow_tooShort os row h1
    exact ⟨Or.inl (by rw [hpr]), by rw [hpr],
      processAll_cons_skip os row rest _ os (by simp) hpr⟩
  · have hpr := processRow_pending os row h1 hp
    exact ⟨Or.inr (by rw [hpr]), by rw [hpr],
      processAll_cons_skip os row rest _ os (by simp) hpr⟩

/-- Witness for C9 at a concrete input. -/
theorem c9_pending_skipped_witness :
    ((processRow emptyOrders
        ⟨5, "Pending", some ⟨2025, 3, 4⟩, some "SHOP", none, some 5⟩).1
          = RowOutcome.tooShort
      ∨ (processRow emptyOrders
        ⟨5, "Pending", some ⟨2025, 3, 4⟩, some "SHOP", none, some 5⟩).1
          = RowOutcome.pendingSkip)
    ∧ (processRow emptyOrders
        ⟨5, "Pending", some ⟨2025, 3, 4⟩, some "SHOP", none, some 5⟩).2
        = emptyOrders
    ∧ processAll emptyOrders
        (⟨5, "Pending", some ⟨2025, 3, 4⟩, some "SHOP", none, some 5⟩ :: [])
        = processAll emptyOrders [] :=
  c9_pending_skipped emptyOrders
    ⟨5, "Pending", some ⟨2025, 3, 4⟩, some "SHOP", none, some 5⟩ []
    (by decide)

/-- C10: output rows are emitted in the reverse of statement HTML order.
The emitted records, projected to their row-determined stamps (date cell,
debit cell, credit cell), are exactly the emitting rows of the statement in
reverse order; in particular, of two emitting rows, the one appearing later
in the HTML is written earlier in the CSV. -/
theorem c10_reverse_emission (os : Orders) (rows : List Row) :
    ((runStatement os rows).1).map stampRec
      = ((rows.filter rowEmits).map rowStamp).reverse := by
  rw [runStatement, processAll_stamps rows.reverse os, List.filter_reverse,
    List.map_reverse]

end AmexGnucash
